import Mathlib

/-
Verification of the risk-estimation logic of the progress-tracking
dashboard (src/app.py).

Shallow embedding conventions:
- Calendar dates are day numbers (`Int`, days since 1970-01-01); an absent
  (None/NaT) date field is `none`.  All the date arithmetic in the program
  is whole-day arithmetic on dates, so this is exact.
- The progress fraction is a rational number (`ℚ`); an absent value is
  `none`.  `float(row.get("progress") or 0.0)` is modelled by
  `Option.getD _ 0`.
- Python `int()` truncates toward zero; `pyInt` below does the same on ℚ.
- pandas NaT is falsy, `pd.notna` rejects it, and `x or y` returns `y`
  when `x` is NaT/None; option matching below mirrors this.
-/

namespace Schedule

/-- Day number of a proleptic Gregorian calendar date, in days since
1970-01-01 (the standard civil-days algorithm, valid for years ≥ 1).
Used only to name concrete dates in witnesses. -/
def mkDate (y m d : Nat) : Int :=
  let y2 := if m ≤ 2 then y - 1 else y
  let era := y2 / 400
  let yoe := y2 % 400
  let mp := (m + 9) % 12
  let doy := (153 * mp + 2) / 5 + d - 1
  let doe := yoe * 365 + yoe / 4 - yoe / 100 + doy
  ((era * 146097 + doe : Nat) : Int) - 719468

/-- The record consumed by `risk_level` (src/app.py:89): the merged
item/task fields it reads via `row.get`. -/
structure Row where
  plan_start : Option Int
  plan_finish : Option Int
  act_start : Option Int
  act_finish : Option Int
  progress : Option ℚ
  due : Option Int
  hard_deadline : Option Int
deriving DecidableEq

/-- Python `int()` on a (non-negative or negative) rational: truncation
toward zero, as in `int(plan_days * (1 - progress))` (src/app.py:98). -/
def pyInt (q : ℚ) : Int := Int.tdiv q.num q.den

/-- Estimated finish date, the first half of `risk_level`
(src/app.py:90-102).  Branch 1: in-progress projection; branch 2:
`act_finish or plan_finish` for completed work; branch 3: `plan_finish`
(which may be absent). -/
def estFinish (today : Int) (row : Row) : Option Int :=
  let progress : ℚ := row.progress.getD 0
  if 0 < progress ∧ progress < 1 ∧ row.plan_finish.isSome then
    let plan_start := row.plan_start.getD today
    let plan_days : Int := max (row.plan_finish.getD 0 - plan_start) 1
    some (today + pyInt ((plan_days : ℚ) * (1 - progress)))
  else if 1 ≤ progress then
    row.act_finish.or row.plan_finish
  else
    row.plan_finish

/-- Effective due date (src/app.py:104-105): minimum of the present values
among due, hard_deadline, plan_finish; `none` when all are absent. -/
def effectiveDue (row : Row) : Option Int :=
  let due_candidates := ([row.due, row.hard_deadline, row.plan_finish]).filterMap id
  due_candidates.min?

/-- The full `risk_level` classifier (src/app.py:89-117). -/
def riskLevel (today : Int) (row : Row) : String :=
  match effectiveDue row, estFinish today row with
  | some due, some est =>
    let slack_days := due - est
    if slack_days < 0 then "late"
    else if slack_days ≤ 7 then "warn"
    else "ok"
  | _, _ => "warn"

/-- Rank of a tier in the order late < warn < ok (used to state
monotonicity of the classification). -/
def tierRank (s : String) : Nat :=
  if s = "late" then 0 else if s = "warn" then 1 else 2

/-- A task row as read by the alert view (src/app.py:440-450): only these
five fields of the representative task are merged into the record. -/
structure Task where
  plan_start : Option Int
  plan_finish : Option Int
  act_start : Option Int
  act_finish : Option Int
  progress : Option ℚ
deriving DecidableEq

/-- The item fields that survive into the merged record of the alert view:
`due` and `hard_deadline`.  The item's own plan dates are overwritten by
the representative task's, and its id/code/description are never read by
`risk_level`. -/
structure Item where
  due : Option Int
  hard_deadline : Option Int
deriving DecidableEq

/-- Sort key order of `tdf.sort_values("plan_finish")` (src/app.py:444):
ascending by date with an absent (NaT) key placed last, which is the
pandas default (na_position is last). -/
def keyLE : Option Int → Option Int → Bool
  | _, none => true
  | none, some _ => false
  | some a, some b => decide (a ≤ b)

/-- One step of taking the last row of the ascending sort: keep the
latest-sorting task seen so far, preferring the later list element on
ties.  (The last row of a stable ascending sort is the last occurrence of
a maximal key.  pandas' default quicksort is not stable, so on exact key
ties the original program is not deterministic; the theorems below only
constrain the selected key, which is tie-independent.) -/
def repStep (acc : Option Task) (t : Task) : Option Task :=
  match acc with
  | none => some t
  | some best => if keyLE best.plan_finish t.plan_finish then some t else some best

/-- Representative task of an item in the alert view (src/app.py:443-444):
`rep = tdf.sort_values("plan_finish").iloc[-1]`, the last element of the
ascending sort by plan_finish; `none` iff the item has no tasks. -/
def repTask (ts : List Task) : Option Task := ts.foldl repStep none

/-- Modelled from the spec's words (claim C4): the claimed selection rule
in which an absent plan_finish is a minimal sort key, so the task with the
latest present plan_finish would be selected.  Declared only to compare
the claimed rule against `repTask`, which models the code. -/
def keyLEClaimed : Option Int → Option Int → Bool
  | none, _ => true
  | some _, none => false
  | some a, some b => decide (a ≤ b)

/-- Fold step for the claimed selection rule of claim C4. -/
def repStepClaimed (acc : Option Task) (t : Task) : Option Task :=
  match acc with
  | none => some t
  | some best => if keyLEClaimed best.plan_finish t.plan_finish then some t else some best

/-- Representative selection as claim C4 describes it (absent plan_finish
minimal). -/
def repTaskClaimed (ts : List Task) : Option Task := ts.foldl repStepClaimed none

/-- The merged record built in the alert loop (src/app.py:445-450): the
item's due and hard_deadline with the representative task's dates and
progress. -/
def mergedRow (it : Item) (rep : Task) : Row :=
  { plan_start := rep.plan_start
    plan_finish := rep.plan_finish
    act_start := rep.act_start
    act_finish := rep.act_finish
    progress := rep.progress
    due := it.due
    hard_deadline := it.hard_deadline }

/-- The cross-item alert loop (src/app.py:438-452): an item with no tasks
is skipped; otherwise its merged representative record is classified. -/
def alertRows (today : Int) (xs : List (Item × List Task)) : List (Item × String) :=
  xs.filterMap fun x =>
    match repTask x.2 with
    | none => none
    | some rep => some (x.1, riskLevel today (mergedRow x.1 rep))

/- Concrete records used by witnesses and counterexamples. -/

/-- Witness row for C1: plan_finish only, so due = est = day 10. -/
def rowC1 : Row := ⟨none, some 10, none, none, none, none, none⟩

/-- Witness row for C2: the worked example of the spec. -/
def rowC2 : Row :=
  ⟨some (mkDate 2025 1 1), some (mkDate 2025 1 21), none, none, some (mkRat 1 2), none, none⟩

/-- Witness row for C3: the worked example of the spec. -/
def rowC3 : Row :=
  ⟨none, some (mkDate 2025 9 30), none, none, none, some (mkDate 2025 9 20),
    some (mkDate 2025 9 10)⟩

/-- Witness row for C5: every field absent. -/
def rowC5 : Row := ⟨none, none, none, none, none, none, none⟩

/-- Witness row for C6: completed task whose act_finish differs from its
plan_finish. -/
def rowC6 : Row := ⟨none, some 20, none, some 15, some 1, some 100, none⟩

/-- Witness row for C8. -/
def rowC8 : Row := ⟨some 0, some 30, none, none, some (mkRat 1 2), some 40, none⟩

/-- A second, identically-valued row for the C8 witness. -/
def rowC8b : Row := ⟨some 0, some 30, none, none, some (mkRat 1 2), some 40, none⟩

/-- Witness row for C9: zero progress, distant customer due date. -/
def rowC9 : Row :=
  ⟨none, some (mkDate 2025 12 31), none, none, some 0, some (mkDate 2026 12 31), none⟩

/-- Witness row for C10 (progress field varied by the theorem). -/
def rowC10 : Row := ⟨some 0, some 40, none, none, none, some 100, none⟩

/-- Evaluation day used by the C4 counterexample. -/
def day0 : Int := mkDate 2025 1 10

/-- C4 counterexample item: customer due 2025-03-01, no hard deadline. -/
def itemC4 : Item := ⟨some (mkDate 2025 3 1), none⟩

/-- C4 counterexample task with a present plan_finish (completed early). -/
def taskPresent : Task :=
  ⟨some (mkDate 2025 1 1), some (mkDate 2025 1 31), none, some (mkDate 2025 1 15), some 1⟩

/-- C4 counterexample task with an absent plan_finish. -/
def taskAbsent : Task := ⟨none, none, none, none, some 0⟩

/-- C4 witness item. -/
def itemC4w : Item := ⟨some 100, none⟩

/-- C4 witness tasks: both plan_finish present, the second later. -/
def taskW1 : Task := ⟨some 0, some 10, none, none, some 0⟩

/-- Second C4 witness task. -/
def taskW2 : Task := ⟨some 0, some 30, none, none, some 0⟩

/- Helper lemmas shared by the claim theorems. -/

lemma pyInt_eq_floor {q : ℚ} (h : 0 ≤ q) : pyInt q = ⌊q⌋ := by
  rw [pyInt, Rat.floor_def]
  exact Int.tdiv_eq_ediv (Rat.num_nonneg.2 h) (Int.ofNat_nonneg q.den)

lemma pyInt_mono {a b : ℚ} (ha : 0 ≤ a) (hab : a ≤ b) : pyInt a ≤ pyInt b := by
  rw [pyInt_eq_floor ha, pyInt_eq_floor (le_trans ha hab)]
  exact Int.floor_le_floor hab

lemma riskLevel_eq_of_some {today due est : Int} {row : Row}
    (hdue : effectiveDue row = some due) (hest : estFinish today row = some est) :
    riskLevel today row =
      if due - est < 0 then "late" else if due - est ≤ 7 then "warn" else "ok" := by
  unfold riskLevel
  rw [hdue, hest]

lemma estFinish_inprogress {today : Int} {row : Row} {p : ℚ} {pf : Int}
    (hp : row.progress = some p) (h0 : 0 < p) (h1 : p < 1)
    (hpf : row.plan_finish = some pf) :
    estFinish today row =
      some (today + pyInt (((max (pf - row.plan_start.getD today) 1 : Int) : ℚ) * (1 - p))) := by
  unfold estFinish
  rw [hp, hpf]
  simp only [Option.getD_some, Option.isSome_some]
  rw [if_pos ⟨h0, h1, trivial⟩]

lemma estFinish_zero {today : Int} {row : Row}
    (hp : row.progress = none ∨ row.progress = some 0) :
    estFinish today row = row.plan_finish := by
  unfold estFinish
  rcases hp with h | h <;> rw [h] <;>
    · simp only [Option.getD_none, Option.getD_some]
      rw [if_neg (by norm_num), if_neg (by norm_num)]

lemma estFinish_completed {today : Int} {row : Row} {p : ℚ}
    (hp : row.progress = some p) (h1 : 1 ≤ p) :
    estFinish today row = row.act_finish.or row.plan_finish := by
  unfold estFinish
  rw [hp]
  simp only [Option.getD_some]
  rw [if_neg (fun hcon => absurd h1 (not_le.2 hcon.2.1)), if_pos h1]

lemma effectiveDue_le_plan_finish (row : Row) (pf : Int)
    (hpf : row.plan_finish = some pf) :
    ∃ d : Int, effectiveDue row = some d ∧ d ≤ pf := by
  rcases hdu : row.due with _ | a <;> rcases hhd : row.hard_deadline with _ | b <;>
    simp [effectiveDue, hdu, hhd, hpf, List.min?] <;> omega

lemma keyLE_refl (a : Option Int) : keyLE a a = true := by
  rcases a with _ | x <;> simp [keyLE]

lemma keyLE_trans {a b c : Option Int} (h1 : keyLE a b = true) (h2 : keyLE b c = true) :
    keyLE a c = true := by
  rcases a with _ | x <;> rcases b with _ | y <;> rcases c with _ | z <;>
    simp [keyLE] at * <;> omega

lemma keyLE_total (a b : Option Int) : keyLE a b = true ∨ keyLE b a = true := by
  rcases a with _ | x <;> rcases b with _ | y <;> simp [keyLE] <;> omega

lemma repTask_fold (ts : List Task) : ∀ b : Task,
    ∃ r : Task, ts.foldl repStep (some b) = some r ∧ (r = b ∨ r ∈ ts) ∧
      keyLE b.plan_finish r.plan_finish = true ∧
      ∀ t ∈ ts, keyLE t.plan_finish r.plan_finish = true := by
  induction ts with
  | nil => exact fun b => ⟨b, rfl, Or.inl rfl, keyLE_refl _, by simp⟩
  | cons t ts ih =>
    intro b
    rw [List.foldl_cons]
    by_cases h : keyLE b.plan_finish t.plan_finish = true
    · have hstep : repStep (some b) t = some t := by simp [repStep, h]
      rw [hstep]
      obtain ⟨r, hr, hmem, hle, hall⟩ := ih t
      refine ⟨r, hr, ?_, keyLE_trans h hle, ?_⟩
      · rcases hmem with rfl | hm
        · exact Or.inr (List.mem_cons_self _ _)
        · exact Or.inr (List.mem_cons_of_mem _ hm)
      · intro u hu
        rcases List.mem_cons.mp hu with rfl | hm
        · exact hle
        · exact hall u hm
    · have hba : keyLE t.plan_finish b.plan_finish = true := by
        rcases keyLE_total b.plan_finish t.plan_finish with h1 | h1
        · exact absurd h1 h
        · exact h1
      have hstep : repStep (some b) t = some b := by simp [repStep, h]
      rw [hstep]
      obtain ⟨r, hr, hmem, hle, hall⟩ := ih b
      refine ⟨r, hr, ?_, hle, ?_⟩
      · rcases hmem with rfl | hm
        · exact Or.inl rfl
        · exact Or.inr (List.mem_cons_of_mem _ hm)
      · intro u hu
        rcases List.mem_cons.mp hu with rfl | hm
        · exact keyLE_trans hba hle
        · exact hall u hm

lemma tier_if_mono {s1 s2 : Int} (h : s1 ≤ s2) :
    tierRank (if s1 < 0 then "late" else if s1 ≤ 7 then "warn" else "ok") ≤
      tierRank (if s2 < 0 then "late" else if s2 ≤ 7 then "warn" else "ok") := by
  split_ifs <;> first | omega | decide

/- Claim theorems. -/

/-- C1: whenever both the effective due date and the estimated finish date
are defined, `risk_level` classifies exactly by the sign and size of
slack_days = due - est: negative slack is late, slack in [0, 7] is warn,
slack above 7 is ok. -/
theorem c1_slack_classifies (today : Int) (row : Row) (due est : Int)
    (hdue : effectiveDue row = some due) (hest : estFinish today row = some est) :
    (due - est < 0 → riskLevel today row = "late") ∧
    (0 ≤ due - est ∧ due - est ≤ 7 → riskLevel today row = "warn") ∧
    (7 < due - est → riskLevel today row = "ok") := by
  have h := riskLevel_eq_of_some hdue hest
  refine ⟨fun h1 => ?_, fun h1 => ?_, fun h1 => ?_⟩ <;> rw [h]
  · rw [if_pos h1]
  · rw [if_neg (by omega), if_pos (by omega)]
  · rw [if_neg (by omega), if_neg (by omega)]

/-- C1 witness: a record with slack_days = 0 is classified warn. -/
theorem c1_slack_classifies_witness : riskLevel 0 rowC1 = "warn" :=
  (c1_slack_classifies 0 rowC1 10 10 (by decide) (by decide)).2.1 (by decide)

/-- C5: when the effective due date or the estimated finish is undefined,
`risk_level` returns warn. -/
theorem c5_insufficient_data_warn (today : Int) (row : Row)
    (h : effectiveDue row = none ∨ estFinish today row = none) :
    riskLevel today row = "warn" := by
  unfold riskLevel
  rcases h with h | h
  · rw [h]
  · rcases hdue : effectiveDue row with _ | d <;> rw [h]

/-- C5 witness: the all-absent record is classified warn. -/
theorem c5_insufficient_data_warn_witness : riskLevel 0 rowC5 = "warn" :=
  c5_insufficient_data_warn 0 rowC5 (Or.inl (by decide))

/-- C6: with progress at least 1, the estimated finish is act_finish when
present (even if plan_finish is present and differs), else plan_finish. -/
theorem c6_completed_act_finish (today : Int) (row : Row) (p : ℚ)
    (hp : row.progress = some p) (h1 : 1 ≤ p) :
    (∀ af : Int, row.act_finish = some af → estFinish today row = some af) ∧
    (row.act_finish = none → estFinish today row = row.plan_finish) := by
  have hest : estFinish today row = row.act_finish.or row.plan_finish :=
    estFinish_completed hp h1
  constructor
  · intro af haf
    rw [hest, haf]
    rfl
  · intro haf
    rw [hest, haf]
    rfl

/-- C6 witness: progress 1, act_finish day 15, plan_finish day 20; the
estimate is day 15. -/
theorem c6_completed_act_finish_witness : estFinish 0 rowC6 = some 15 :=
  (c6_completed_act_finish 0 rowC6 1 rfl (by norm_num)).1 15 rfl

/-- C7: `risk_level` is total and its result is always one of the three
tiers late, warn, ok. -/
theorem c7_total_three_tiers (today : Int) (row : Row) :
    riskLevel today row = "late" ∨ riskLevel today row = "warn" ∨
      riskLevel today row = "ok" := by
  unfold riskLevel
  rcases effectiveDue row with _ | d
  · simp
  · rcases estFinish today row with _ | e
    · simp
    · dsimp only
      split_ifs <;> simp

/-- C2: with 0 < progress < 1 and plan_finish present, the estimated
finish is today plus floor(plan_days * (1 - progress)) days, where
plan_days = max(plan_finish - plan_start_eff, 1) and plan_start_eff is
plan_start when present, else today. -/
theorem c2_progress_projection (today : Int) (row : Row) (p : ℚ) (pf : Int)
    (hp : row.progress = some p) (h0 : 0 < p) (h1 : p < 1)
    (hpf : row.plan_finish = some pf) :
    estFinish today row =
      some (today + ⌊(((max (pf - row.plan_start.getD today) 1 : Int) : ℚ) * (1 - p))⌋) := by
  rw [estFinish_inprogress hp h0 h1 hpf]
  have hq : (0 : ℚ) ≤ ((max (pf - row.plan_start.getD today) 1 : Int) : ℚ) * (1 - p) := by
    apply mul_nonneg
    · have : (0 : Int) ≤ max (pf - row.plan_start.getD today) 1 := le_trans zero_le_one (le_max_right _ 1)
      exact_mod_cast this
    · linarith
  rw [pyInt_eq_floor hq]

/-- C2 witness: the worked example of the spec (today 2025-01-10,
plan 2025-01-01 to 2025-01-21, progress one half) estimates 2025-01-20. -/
theorem c2_progress_projection_witness :
    estFinish (mkDate 2025 1 10) rowC2 = some (mkDate 2025 1 20) := by
  rw [c2_progress_projection (mkDate 2025 1 10) rowC2 (mkRat 1 2) (mkDate 2025 1 21)
    rfl (by decide) (by decide) rfl]
  norm_num [rowC2, mkDate]

/-- C3: the effective due date is undefined exactly when due,
hard_deadline and plan_finish are all absent, and otherwise equals one of
the present values and is a lower bound of every present value (i.e. it is
their minimum). -/
theorem c3_effective_due_min (row : Row) (d x : Int) :
    (effectiveDue row = none ↔
      row.due = none ∧ row.hard_deadline = none ∧ row.plan_finish = none) ∧
    (effectiveDue row = some d →
      ((row.due = some d ∨ row.hard_deadline = some d ∨ row.plan_finish = some d) ∧
       ((row.due = some x ∨ row.hard_deadline = some x ∨ row.plan_finish = some x) →
         d ≤ x))) := by
  constructor
  · rcases hdu : row.due with _ | a <;> rcases hhd : row.hard_deadline with _ | b <;>
      rcases hpf : row.plan_finish with _ | c <;> simp [effectiveDue, hdu, hhd, hpf, List.min?]
  · intro hdue
    rcases hdu : row.due with _ | a <;> rcases hhd : row.hard_deadline with _ | b <;>
      rcases hpf : row.plan_finish with _ | c <;>
      simp [effectiveDue, hdu, hhd, hpf, List.min?] at hdue ⊢ <;> omega

/-- C3 witness: due 2025-09-20, hard_deadline 2025-09-10, plan_finish
2025-09-30 give effective due 2025-09-10, which is one of the present
values. -/
theorem c3_effective_due_min_witness :
    rowC3.due = some (mkDate 2025 9 10) ∨ rowC3.hard_deadline = some (mkDate 2025 9 10) ∨
      rowC3.plan_finish = some (mkDate 2025 9 10) :=
  (((c3_effective_due_min rowC3 (mkDate 2025 9 10) (mkDate 2025 9 10)).2 (by decide))).1

/-- C8: `risk_level` is deterministic: two records with identical fields
evaluated at the same value of today are classified identically.  (Purity
is reflected by the embedding itself: `riskLevel` is a function of the
record and the day only.) -/
theorem c8_deterministic (today : Int) (r1 r2 : Row)
    (h : r1.plan_start = r2.plan_start ∧ r1.plan_finish = r2.plan_finish ∧
      r1.act_start = r2.act_start ∧ r1.act_finish = r2.act_finish ∧
      r1.progress = r2.progress ∧ r1.due = r2.due ∧
      r1.hard_deadline = r2.hard_deadline) :
    riskLevel today r1 = riskLevel today r2 := by
  obtain ⟨e1, e2, e3, e4, e5, e6, e7⟩ := h
  obtain ⟨a1, a2, a3, a4, a5, a6, a7⟩ := r1
  obtain ⟨b1, b2, b3, b4, b5, b6, b7⟩ := r2
  simp only at e1 e2 e3 e4 e5 e6 e7
  subst e1 e2 e3 e4 e5 e6 e7
  rfl

/-- C8 witness: two identically-valued records get the same tier. -/
theorem c8_deterministic_witness : riskLevel 5 rowC8 = riskLevel 5 rowC8b :=
  c8_deterministic 5 rowC8 rowC8b ⟨rfl, rfl, rfl, rfl, rfl, rfl, rfl⟩

/-- C9: when plan_finish is present and the estimated finish falls back to
plan_finish (progress absent or zero, or progress at least 1 with
act_finish absent), the result is never ok: plan_finish is itself a due
candidate, so the effective due is at most plan_finish and slack is at
most zero. -/
theorem c9_plan_finish_not_ok (today : Int) (row : Row) (pf : Int)
    (hpf : row.plan_finish = some pf)
    (hp : row.progress = none ∨ row.progress = some 0 ∨
      ∃ p : ℚ, row.progress = some p ∧ 1 ≤ p ∧ row.act_finish = none) :
    riskLevel today row = "warn" ∨ riskLevel today row = "late" := by
  have hest : estFinish today row = some pf := by
    rcases hp with h | h | ⟨p, h, h1, haf⟩
    · rw [estFinish_zero (Or.inl h), hpf]
    · rw [estFinish_zero (Or.inr h), hpf]
    · rw [estFinish_completed h h1, haf, hpf]
      rfl
  obtain ⟨d, hdue, hdle⟩ := effectiveDue_le_plan_finish row pf hpf
  rw [riskLevel_eq_of_some hdue hest]
  split_ifs with h1 h2
  · exact Or.inr rfl
  · exact Or.inl rfl
  · omega

/-- C9 witness: zero progress with a distant customer due date is still
only warn. -/
theorem c9_plan_finish_not_ok_witness :
    riskLevel 0 rowC9 = "warn" ∨ riskLevel 0 rowC9 = "late" :=
  c9_plan_finish_not_ok 0 rowC9 (mkDate 2025 12 31) rfl (Or.inr (Or.inl rfl))

/-- C10: on the in-progress branch (plan_finish present, 0 < p1 ≤ p2 < 1),
a larger progress gives an estimated finish no later, and hence a tier at
least as favourable in the order late < warn < ok. -/
theorem c10_progress_monotone (today : Int) (row : Row) (p1 p2 : ℚ) (pf : Int)
    (hpf : row.plan_finish = some pf) (h0 : 0 < p1) (h12 : p1 ≤ p2) (h2 : p2 < 1) :
    ∃ e1 e2 : Int,
      estFinish today { row with progress := some p1 } = some e1 ∧
      estFinish today { row with progress := some p2 } = some e2 ∧
      e2 ≤ e1 ∧
      tierRank (riskLevel today { row with progress := some p1 }) ≤
        tierRank (riskLevel today { row with progress := some p2 }) := by
  obtain ⟨ps, pf0, as1, af, pr, du, hd⟩ := row
  simp only at hpf
  subst hpf
  have hpf1 : (Row.mk ps (some pf) as1 af (some p1) du hd).plan_finish = some pf := rfl
  have hpf2 : (Row.mk ps (some pf) as1 af (some p2) du hd).plan_finish = some pf := rfl
  have he1 : estFinish today (Row.mk ps (some pf) as1 af (some p1) du hd) =
      some (today + pyInt (((max (pf -
        (Row.mk ps (some pf) as1 af (some p1) du hd).plan_start.getD today) 1 : Int) : ℚ) *
        (1 - p1))) :=
    estFinish_inprogress rfl h0 (lt_of_le_of_lt h12 h2) hpf1
  have he2 : estFinish today (Row.mk ps (some pf) as1 af (some p2) du hd) =
      some (today + pyInt (((max (pf -
        (Row.mk ps (some pf) as1 af (some p2) du hd).plan_start.getD today) 1 : Int) : ℚ) *
        (1 - p2))) :=
    estFinish_inprogress rfl (lt_of_lt_of_le h0 h12) h2 hpf2
  set D : Int := max (pf - (Row.mk ps (some pf) as1 af (some p1) du hd).plan_start.getD today) 1 with hD
  have hD1 : (1 : Int) ≤ D := le_max_right _ 1
  have hDq : (0 : ℚ) ≤ (D : ℚ) := by exact_mod_cast le_trans zero_le_one hD1
  have hq2 : (0 : ℚ) ≤ (D : ℚ) * (1 - p2) := mul_nonneg hDq (by linarith)
  have hqle : (D : ℚ) * (1 - p2) ≤ (D : ℚ) * (1 - p1) :=
    mul_le_mul_of_nonneg_left (by linarith) hDq
  have hee : today + pyInt ((D : ℚ) * (1 - p2)) ≤ today + pyInt ((D : ℚ) * (1 - p1)) := by
    have := pyInt_mono hq2 hqle
    omega
  obtain ⟨d, hdue1, _⟩ :=
    effectiveDue_le_plan_finish (Row.mk ps (some pf) as1 af (some p1) du hd) pf hpf1
  have hdue2 : effectiveDue (Row.mk ps (some pf) as1 af (some p2) du hd) = some d := hdue1
  refine ⟨today + pyInt ((D : ℚ) * (1 - p1)), today + pyInt ((D : ℚ) * (1 - p2)),
    he1, he2, hee, ?_⟩
  rw [riskLevel_eq_of_some hdue1 he1, riskLevel_eq_of_some hdue2 he2]
  exact tier_if_mono (by omega)

/-- C10 witness: with a 40-day plan, progress one eighth classifies warn
and progress one half classifies ok; the tier order is respected. -/
theorem c10_progress_monotone_witness :
    tierRank (riskLevel 0 { rowC10 with progress := some (mkRat 1 8) }) ≤
      tierRank (riskLevel 0 { rowC10 with progress := some (mkRat 1 2) }) := by
  obtain ⟨e1, e2, h1, h2, h3, h4⟩ :=
    c10_progress_monotone 0 rowC10 (mkRat 1 8) (mkRat 1 2) 40 rfl (by decide) (by decide) (by decide)
  exact h4

/-- C4 counterexample: for an item with tasks sorted by plan_finish, the
code's representative is the last row of the pandas sort, which places an
absent plan_finish last; the claimed rule (absent minimal, latest present
date wins) picks a different task, and the resulting tiers differ. -/
theorem c4_representative_counterexample :
    repTaskClaimed [taskPresent, taskAbsent] = some taskPresent ∧
    repTask [taskPresent, taskAbsent] = some taskAbsent ∧
    alertRows day0 [(itemC4, [taskPresent, taskAbsent])] = [(itemC4, "warn")] ∧
    riskLevel day0 (mergedRow itemC4 taskPresent) = "ok" ∧
    taskAbsent ≠ taskPresent := by decide

/-- C4 (amended): the representative is a member of the item's task list
maximal with respect to the sort key in which an absent plan_finish is a
maximal (last-sorting) key; it exists iff the item has tasks, items with
no tasks are excluded, and the alert row classifies the representative's
fields merged onto the item's due and hard_deadline. -/
theorem c4_representative_amended (today : Int) (it : Item) (ts : List Task) :
    (repTask ts = none ↔ ts = []) ∧
    (ts = [] → alertRows today [(it, ts)] = []) ∧
    (∀ rep : Task, repTask ts = some rep → rep ∈ ts ∧
      (∀ t ∈ ts, keyLE t.plan_finish rep.plan_finish = true) ∧
      alertRows today [(it, ts)] = [(it, riskLevel today (mergedRow it rep))]) := by
  refine ⟨?_, ?_, ?_⟩
  · cases ts with
    | nil => simp [repTask]
    | cons t ts =>
      obtain ⟨r, hr, _, _, _⟩ := repTask_fold ts t
      have : repTask (t :: ts) = some r := by
        simpa [repTask, List.foldl_cons, repStep] using hr
      simp [this]
  · rintro rfl
    rfl
  · intro rep hrep
    cases ts with
    | nil => simp [repTask] at hrep
    | cons t ts =>
      obtain ⟨r, hr, hmem, hle, hall⟩ := repTask_fold ts t
      have hrt : repTask (t :: ts) = some r := by
        simpa [repTask, List.foldl_cons, repStep] using hr
      rw [hrt] at hrep
      injection hrep with h
      subst h
      refine ⟨?_, ?_, ?_⟩
      · rcases hmem with rfl | hm
        · exact List.mem_cons_self _ _
        · exact List.mem_cons_of_mem _ hm
      · intro u hu
        rcases List.mem_cons.mp hu with rfl | hm
        · exact hle
        · exact hall u hm
      · simp [alertRows, hrt]

/-- C4 amended witness: with both plan_finish dates present, the later one
is representative and the item's alert row classifies its merged record. -/
theorem c4_representative_amended_witness :
    taskW2 ∈ [taskW1, taskW2] ∧
    alertRows 0 [(itemC4w, [taskW1, taskW2])] =
      [(itemC4w, riskLevel 0 (mergedRow itemC4w taskW2))] := by
  have h := (c4_representative_amended 0 itemC4w [taskW1, taskW2]).2.2 taskW2 (by decide)
  exact ⟨h.1, h.2.2⟩

end Schedule
